import Mathlib

/-!
Verification of the `ArchiveProject` retention engine
(`src/client/ayon_core/modules/archive/lib/expunge.py`).

The development is a shallow embedding of the engine's pure core:

* CSV-table persistence of the ledger (`read_archive_data`,
  `write_archive_data`, lines 210-283 of expunge.py);
* the per-file decision procedure `consider_file_for_deletion`
  (lines 1162-1323) and the per-collection loop
  `consider_collection_for_deletion` (lines 1118-1151);
* the fail-soft deleter `delete_filepath` (lines 1020-1042).

Filesystem queries (stat/islink/glob/isfile/isdir) and the outcome of
`os.remove`/`shutil.rmtree` are an oracle (`FS`), fixed for the duration of
one call: the engine only reads the filesystem through these calls.
Mutations the engine performs on disk are returned as an explicit action
trace.  Timestamps are integers (seconds); `const._debug` is `False`
(production mode).  Python `datetime` values never collide with pandas NaN
handling except through the empty string, which we model explicitly in the
CSV cells.
-/

namespace Expunge

/-! ### Character-list string helpers -/

/-- Whether `pat` occurs as a contiguous subsequence: Python's `pat in s`. -/
def containsSeq (pat : List Char) : List Char → Bool
  | [] => pat.isEmpty
  | c :: cs => pat.isPrefixOf (c :: cs) || containsSeq pat cs

/-- Index of the first occurrence of `pat` in `l`, if any. -/
def firstSeqIdx (pat : List Char) : List Char → Option Nat
  | [] => if pat.isEmpty then some 0 else none
  | c :: cs =>
    if pat.isPrefixOf (c :: cs) then some 0
    else (firstSeqIdx pat cs).map (· + 1)

/-- Index of the last occurrence of the character `a` in `l`, if any. -/
def lastIdxOf (a : Char) (l : List Char) : Option Nat :=
  (l.reverse.findIdx? (· = a)).map (fun k => l.length - 1 - k)

/-- Model of `os.path.split`: everything after the last `/` is the name; the head is
the rest with trailing slashes stripped unless it is all slashes. -/
def splitPath (p : String) : String × String :=
  let rev := p.toList.reverse
  let nameRev := rev.takeWhile (fun c => c ≠ '/')
  let headRev := rev.dropWhile (fun c => c ≠ '/')
  let head :=
    if headRev.all (fun c => c = '/') then headRev
    else headRev.dropWhile (fun c => c = '/')
  (String.mk head.reverse, String.mk nameRev.reverse)

/-- Model of `os.path.join` for a relative second argument. -/
def joinPath (d n : String) : String :=
  if d = "" then n
  else if d.toList.getLast? = some '/' then d ++ n
  else d ++ "/" ++ n

/-- Constant `DELETE_PREFIX` of expunge.py (line 51): the textual marker of a path
staged for deletion. -/
def deleteMarker : String := "__DELETE__"

/-- Python's `DELETE_PREFIX in name` (expunge.py line 1222). -/
def hasDeleteMarker (name : String) : Bool :=
  containsSeq deleteMarker.toList name.toList

/-- Model of `DELETE_PREFIX_RE.sub("", name)` for the regex `__DELETE__\(.*\)`
(expunge.py line 66): the greedy `.*` runs from the first
`__DELETE__(` to the last `)` of the name; with no such match the name is
returned unchanged. -/
def stripDeleteMarker (name : String) : String :=
  let cs := name.toList
  let pat := (deleteMarker ++ "(").toList
  match firstSeqIdx pat cs with
  | none => name
  | some i =>
    match lastIdxOf ')' cs with
    | none => name
    | some j =>
      if i + pat.length ≤ j then String.mk (cs.take i ++ cs.drop (j + 1))
      else name

/-- A dot-separated component that reads as a frame number. -/
def isFrameChunk (g : List Char) : Bool :=
  !g.isEmpty && g.all Char.isDigit

/-- Replace the last all-digit dot-component with `*`. -/
def replaceLastFrame : List (List Char) → List (List Char)
  | [] => []
  | g :: gs =>
    let gs' := replaceLastFrame gs
    if gs' = gs && isFrameChunk g then ['*'] :: gs else g :: gs'

/-- Split on `.`, keeping empty components (Python `str.split`). -/
def splitOnChar (sep : Char) : List Char → List (List Char)
  | [] => [[]]
  | c :: cs =>
    let r := splitOnChar sep cs
    if c = sep then [] :: r
    else match r with
      | [] => [[c]]
      | g :: gs => (c :: g) :: gs

/-- Rejoin dot-components. -/
def joinDots : List (List Char) → List Char
  | [] => []
  | [g] => g
  | g :: gs => g ++ '.' :: joinDots gs

/-- Modelled from the spec: `path_tools.replace_frame_number_with_token`
(expunge.py line 1218) is not among the repository's staged sources.  Per
the spec (§4.5 step 1) it returns the path with its variable frame number
replaced by a wildcard token, so that `render.1001.exr` and
`render.1002.exr` share one ledger key.  We model it as replacing the last
all-digit dot-separated component of the file name with `*`. -/
def replaceFrameTok (p : String) : String :=
  let (d, n) := splitPath p
  joinPath d (String.mk (joinDots (replaceLastFrame (splitOnChar '.' n.toList))))

/-! ### Data model -/

/-- One ledger entry (`self.archive_entries[path_entry]`, a Python dict).
`paths` is a Python set, modelled as a duplicate-free list; an entry is only
ever stored with `size` and `paths` both set (expunge.py lines 1267-1273 and
1296-1301), so those fields are plain.  The optional provenance strings may
be absent (`extra_data` not given), modelled as `none`. -/
structure DataEntry where
  marked_time : Int
  delete_time : Int
  size : Int := 0
  is_deleted : Bool := false
  paths : List String := []
  publish_dir : Option String := none
  publish_id : Option String := none
  reason : Option String := none
  deriving DecidableEq, Repr

/-- Shape of `extra_data` as the scanners pass it (expunge.py lines 456, 693-697). -/
structure ExtraData where
  publish_dir : Option String := none
  publish_id : Option String := none
  reason : Option String := none
  deriving DecidableEq, Repr

/-- Model of Python `set.add` on the modelled path set. -/
def insertPath (l : List String) (x : String) : List String :=
  if x ∈ l then l else l ++ [x]

/-- Association-list lookup: `path_entry in self.archive_entries` /
`self.archive_entries[path_entry]`. -/
def findEntry (m : List (String × DataEntry)) (k : String) : Option DataEntry :=
  (m.find? (fun kv => kv.1 = k)).map (fun kv => kv.2)

/-- Python dict assignment `self.archive_entries[path_entry] = data_entry`:
an existing key keeps its position and gets the new value, a new key is
appended at the end. -/
def setEntry : List (String × DataEntry) → String → DataEntry →
    List (String × DataEntry)
  | [], k, v => [(k, v)]
  | kv :: rest, k, v =>
    if kv.1 = k then (k, v) :: rest else kv :: setEntry rest k v

/-! ### Time constants (expunge.py lines 35-63)

`TIME_NOW` is `datetime.today()` captured once at import; the
`WARNING_THRESHOLDS` dict is built from the same import instant.  The
delete-time comparison at line 1255 calls `datetime.today()` afresh, so the
environment carries both instants. -/

structure Env where
  /-- Constant `TIME_NOW`, the import-time clock. -/
  timeNow : Int
  /-- Value of `datetime.today()` as called inside the delete check (line 1255). -/
  today : Int
  /-- Constant `TIME_NOW_STR`, the import date rendered `%Y-%m-%d`. -/
  dateStr : String
  deriving Repr

def secondsPerDay : Int := 86400

/-- Days of `WARNING_THRESHOLDS` (lines 35-39): level 0 ↦ 2, 1 ↦ 3, 2 ↦ 8. -/
def warningDays : Fin 3 → Int
  | 0 => 2
  | 1 => 3
  | 2 => 8

/-- Days of `DELETE_THRESHOLDS` (lines 44-48): level 0 ↦ 2, 1 ↦ 5, 2 ↦ 10. -/
def deleteDays : Fin 3 → Int
  | 0 => 2
  | 1 => 5
  | 2 => 10

/-- Model of `WARNING_THRESHOLDS.get(caution_level, WARNING_THRESHOLDS[2])`
(line 1286): an absolute time; `None` (and any missing key) falls back to
level 2. -/
def warningThreshold (env : Env) (caution : Option (Fin 3)) : Int :=
  env.timeNow - (match caution with
    | some c => warningDays c
    | none => warningDays 2) * secondsPerDay

/-- Model of `DELETE_THRESHOLDS[caution_level]` (line 1245): a duration. -/
def deleteThreshold (c : Fin 3) : Int := deleteDays c * secondsPerDay

/-- Constant `TIME_DELETE_PREFIX` (line 63): `__DELETE__(<date>)`. -/
def timeDeleteMarker (env : Env) : String :=
  deleteMarker ++ "(" ++ env.dateStr ++ ")"

/-! ### Filesystem oracle and mutator (expunge.py lines 1020-1042, 1153-1160) -/

/-- Result of a successful `os.stat`. -/
structure FileStat where
  mtime : Int
  st_size : Int
  deriving DecidableEq, Repr

/-- The filesystem as the engine reads it during one call.  `stat p = none`
models `os.stat` raising `FileNotFoundError` (which `os.stat` does for a
broken symlink, since it follows links); `removeOk p = false` models
`os.remove`/`shutil.rmtree` raising (permissions, in-use handle);
`glob pat` is `glob.glob(pat)` in directory-listing order. -/
structure FS where
  stat : String → Option FileStat
  islink : String → Bool
  glob : String → List String
  isfile : String → Bool
  isdir : String → Bool
  removeOk : String → Bool
  duSize : String → Int

/-- A successful on-disk mutation the engine performed. -/
inductive FsAct where
  | deletePath (p : String)
  | renamePath (src dst : String)
  | makeLink (target link : String)
  deriving DecidableEq, Repr

/-- Raw `os.remove`/`shutil.rmtree`: raises (as an `Except` error) unless the
filesystem lets the removal through. -/
def osRemove (fs : FS) (p : String) : Except String Unit :=
  if fs.removeOk p then .ok () else .error "OSError"

/-- Model of `ArchiveProject.delete_filepath` (lines 1020-1042) with
`const._debug = False`: a file is `os.remove`d, a directory `shutil.rmtree`d,
anything else logs and returns `False`; an exception from the removal is
caught and turned into `False`, so the caller always gets a `Bool`. -/
def delete_filepath (fs : FS) (p : String) : Bool :=
  if fs.isfile p then
    match osRemove fs p with
    | .ok _ => true
    | .error _ => false
  else if fs.isdir p then
    match osRemove fs p with
    | .ok _ => true
    | .error _ => false
  else false

/-- Model of `ArchiveProject.get_filepath_size` (lines 1153-1160): `du -s`
for a directory, else the stat size. -/
def get_filepath_size (fs : FS) (p : String) (st : FileStat) : Int :=
  if fs.isdir p then fs.duSize p else st.st_size

/-! ### Engine state and the per-file decision (lines 1162-1323) -/

/-- The mutable state of `ArchiveProject` that
`consider_file_for_deletion` reads and writes: `self.archive_entries`,
`self.protected_entries` and `self.total_size_deleted`. -/
structure EngineState where
  entries : List (String × DataEntry)
  protectedEntries : List String
  total_size_deleted : Int
  deriving DecidableEq, Repr

/-- What one call to `consider_file_for_deletion` produces: the Python
return value (`none` models the bare `return` at line 1228, `some (d, m)`
the `(deleted, marked)` pairs), the updated object state, and the successful
filesystem mutations in order. -/
structure ConsiderResult where
  ret : Option (Bool × Bool)
  st : EngineState
  acts : List FsAct
  deriving DecidableEq, Repr

/-- Lines 1200-1211: stat the path; on `FileNotFoundError` fall back to the
first `glob` match of `*<name>` in the same directory and stat that; a
second failure (or no match) is caught and the call returns early.  Yields
the (possibly retargeted) path and its stat. -/
def resolveStat (fs : FS) (p : String) : Option (String × FileStat) :=
  match fs.stat p with
  | some s => some (p, s)
  | none =>
    let (dir, name) := splitPath p
    match (fs.glob (joinPath dir ("*" ++ name))).head? with
    | none => none
    | some p2 =>
      match fs.stat p2 with
      | none => none
      | some s2 => some (p2, s2)

/-- Lines 1218-1224: the ledger key of a path — the frame number replaced by
the wildcard token, or, for a name already carrying the delete marker, the
marker stripped so staged and unstaged variants share one key. -/
def pathEntryOf (p : String) : String :=
  let (dir, name) := splitPath p
  if hasDeleteMarker name then joinPath dir (stripDeleteMarker name)
  else replaceFrameTok p

/-- Lines 1243-1249: the fresh `data_entry` dict for a path with no existing
ledger entry, stamped with the import-time clock and the caution level's
grace period, then updated with `extra_data`. -/
def freshEntry (env : Env) (c : Fin 3) (extra : ExtraData) : DataEntry :=
  { marked_time := env.timeNow
    delete_time := env.timeNow + deleteThreshold c
    is_deleted := false
    publish_dir := extra.publish_dir
    publish_id := extra.publish_id
    reason := extra.reason }

/-- Lines 1290-1293: the staged name of a path — the dated delete marker
prepended to the file name, in the same directory. -/
def stagedName (env : Env) (p : String) : String :=
  joinPath (splitPath p).1 (timeDeleteMarker env ++ (splitPath p).2)

/-- Lines 1230-1249: the `data_entry` the decision runs on — the stored
entry if the key exists, else a fresh one (requiring a caution level;
`none` here makes the engine log an error and skip). -/
def entryFor (env : Env) (st : EngineState) (pe : String)
    (caution : Option (Fin 3)) (extra : ExtraData) : Option DataEntry :=
  match findEntry st.entries pe with
  | some de => some de
  | none =>
    match caution with
    | none => none
    | some c => some (freshEntry env c extra)

/-- Lines 1267-1272: fold the deleted concrete path into the entry.  The
size is added unconditionally, even if the path is already recorded. -/
def foldDeleted (de : DataEntry) (p : String) (sz : Int) : DataEntry :=
  if !de.paths.isEmpty then
    { de with is_deleted := true, paths := insertPath de.paths p,
              size := de.size + sz }
  else
    { de with is_deleted := true, paths := [p], size := sz }

/-- Lines 1296-1301: fold the newly staged path into the entry; again the
size is added unconditionally. -/
def foldStaged (de : DataEntry) (newP : String) (sz : Int) : DataEntry :=
  if !de.paths.isEmpty then
    { de with paths := insertPath de.paths newP, size := de.size + sz }
  else
    { de with paths := [newP], size := sz }

/-- Model of `ArchiveProject.consider_file_for_deletion`
(expunge.py lines 1162-1323), `const._debug = False`, `silent` dropped
(logging only).  The control flow mirrors the source line by line:

* line 1194: empty path → `(False, False)`;
* lines 1200-1211 (`resolveStat`): missing file, glob fallback, second
  failure → `(False, False)`;
* lines 1213-1215: symlink → `(False, False)`;
* lines 1218-1224 (`pathEntryOf`): ledger key;
* lines 1226-1228: protected key → bare `return`, i.e. Python `None`;
* lines 1230-1241 (`entryFor`): entry lookup; no entry and no caution
  level → error logged, `(False, False)`;
* lines 1253-1277: staged name or `archive` → the delete check
  (`datetime.today() > delete_time or archive`), `delete_filepath`, and on
  success the ledger/total update and `(True, False)`;
* lines 1279-1287: modified after publish, or younger than the warning
  threshold → `(False, False)`;
* lines 1290-1323: staging — rename with the dated marker, optional
  symlink back, ledger update, `(False, True)`. -/
def consider_file_for_deletion (fs : FS) (env : Env) (st : EngineState)
    (filepath : String) (caution : Option (Fin 3)) (archive : Bool)
    (create_time : Option Int) (extra : ExtraData)
    (symlink_path : Option String) : ConsiderResult :=
  if filepath = "" then ⟨some (false, false), st, []⟩
  else
    match resolveStat fs filepath with
    | none => ⟨some (false, false), st, []⟩
    | some (fp, fst) =>
      if fs.islink fp then ⟨some (false, false), st, []⟩
      else
        let name := (splitPath fp).2
        let pe := pathEntryOf fp
        if pe ∈ st.protectedEntries then ⟨none, st, []⟩
        else
          match entryFor env st pe caution extra with
          | none => ⟨some (false, false), st, []⟩
          | some de =>
            if hasDeleteMarker name || archive then
              if env.today > de.delete_time || archive then
                if delete_filepath fs fp then
                  let sz := get_filepath_size fs fp fst
                  let de' := foldDeleted de fp sz
                  ⟨some (true, false),
                    { st with entries := setEntry st.entries pe de',
                              total_size_deleted := st.total_size_deleted + sz },
                    [.deletePath fp]⟩
                else ⟨some (false, false), st, []⟩
              else ⟨some (false, false), st, []⟩
            else if (match create_time with
                      | some ct => decide (fst.mtime > ct)
                      | none => false) then
              ⟨some (false, false), st, []⟩
            else if fst.mtime > warningThreshold env caution then
              ⟨some (false, false), st, []⟩
            else
              let newFp := stagedName env fp
              let sz := get_filepath_size fs fp fst
              let de' := foldStaged de newFp sz
              ⟨some (false, true),
                { st with entries := setEntry st.entries pe de' },
                [.renamePath fp newFp] ++
                  (match symlink_path with
                    | some sp => [.makeLink sp fp]
                    | none => [])⟩

/-! ### The collection loop (expunge.py lines 1118-1151) -/

/-- Model of the loop body of `consider_collection_for_deletion`: for each
member frame (with its index), call `consider_file_for_deletion` and unpack
`deleted_, marked_ = ...`.  Unpacking the bare-`return` `None` raises a
`TypeError`, and `symlink_paths[index]` past the end raises an `IndexError`;
both are modelled as `Except.error` since nothing in the loop catches them.
Otherwise the member results are or-ed into the running pair. -/
def considerLoop (fs : FS) (env : Env) (caution : Option (Fin 3))
    (archive : Bool) (create_time : Option Int) (extra : ExtraData)
    (symlink_paths : Option (List String)) :
    Nat → List String → EngineState → Bool → Bool → List FsAct →
    Except String ((Bool × Bool) × EngineState × List FsAct)
  | _, [], st, deleted, marked, acts => .ok ((deleted, marked), st, acts)
  | i, p :: rest, st, deleted, marked, acts =>
    match (match symlink_paths with
            | none => Except.ok (none : Option String)
            | some l =>
              if h : i < l.length then Except.ok (some (l.get ⟨i, h⟩))
              else Except.error "IndexError") with
    | .error e => .error e
    | .ok sp =>
      let r := consider_file_for_deletion fs env st p caution archive
        create_time extra sp
      match r.ret with
      | none => .error "TypeError"
      | some (d, m) =>
        considerLoop fs env caution archive create_time extra symlink_paths
          (i + 1) rest r.st (deleted || d) (marked || m) (acts ++ r.acts)

/-- Model of `ArchiveProject.consider_collection_for_deletion`
(lines 1118-1151): run the loop from index 0 with both flags `False`. -/
def consider_collection_for_deletion (fs : FS) (env : Env)
    (st : EngineState) (members : List String) (caution : Option (Fin 3))
    (archive : Bool) (create_time : Option Int) (extra : ExtraData)
    (symlink_paths : Option (List String)) :
    Except String ((Bool × Bool) × EngineState × List FsAct) :=
  considerLoop fs env caution archive create_time extra symlink_paths
    0 members st false false []

/-- Observer for the collection loop: the per-member `(deleted, marked)`
pairs, threading the state exactly as the loop does; `none` as soon as a
member's call yields the bare-`return` `None`.  (Stated for runs without
`symlink_paths`, as the aggregation claim uses.) -/
def memberOutcomes (fs : FS) (env : Env) (caution : Option (Fin 3))
    (archive : Bool) (create_time : Option Int) (extra : ExtraData) :
    List String → EngineState → Option (List (Bool × Bool))
  | [], _ => some []
  | p :: rest, st =>
    let r := consider_file_for_deletion fs env st p caution archive
      create_time extra none
    match r.ret with
    | none => none
    | some dm =>
      (memberOutcomes fs env caution archive create_time extra rest r.st).map
        (fun l => dm :: l)

/-! ### Ledger persistence (expunge.py lines 210-283)

The CSV file is modelled as a list of rows.  A missing optional metadata
string is written as the empty cell (`data_entries.get("publish_dir", "")`,
lines 268-270); pandas reads an empty cell back as NaN, i.e. as a missing
value, which `parseCell` renders as `none`.  Timestamps, the size and the
`is_deleted` flag round-trip exactly; the `paths` set is serialised via
`repr`/`literal_eval`, lossless up to element order, kept here as the list
itself. -/

/-- One row of `delete_data.csv` (columns of lines 251-261). -/
structure CsvRow where
  path : String
  delete_time : Int
  marked_time : Int
  size : Int
  is_deleted : Bool
  publish_dir : String
  publish_id : String
  reason : String
  paths : List String
  deriving DecidableEq, Repr

/-- Serialisation of one in-memory entry to a row (lines 262-271):
missing optional strings become the empty cell. -/
def entryToRow (k : String) (e : DataEntry) : CsvRow :=
  { path := k
    delete_time := e.delete_time
    marked_time := e.marked_time
    size := e.size
    is_deleted := e.is_deleted
    publish_dir := e.publish_dir.getD ""
    publish_id := e.publish_id.getD ""
    reason := e.reason.getD ""
    paths := e.paths }

/-- Reading one CSV cell of an optional string column: pandas turns the
empty cell into NaN, i.e. a missing value. -/
def parseCell (s : String) : Option String :=
  if s = "" then none else some s

/-- Deserialisation of one row into an in-memory entry (lines 221-225). -/
def rowToEntry (r : CsvRow) : DataEntry :=
  { marked_time := r.marked_time
    delete_time := r.delete_time
    size := r.size
    is_deleted := r.is_deleted
    paths := r.paths
    publish_dir := parseCell r.publish_dir
    publish_id := parseCell r.publish_id
    reason := parseCell r.reason }

/-- Keep the first row of each `path`, dropping later rows with a key
already seen (`seen` accumulates the keys kept so far). -/
def dedupFirstAux (seen : List String) : List CsvRow → List CsvRow
  | [] => []
  | r :: rs =>
    if r.path ∈ seen then dedupFirstAux seen rs
    else r :: dedupFirstAux (r.path :: seen) rs

/-- Model of pandas `drop_duplicates(subset=["path"], keep="last")`
(line 280): keep, in their original relative order, the last occurrence of
each `path`. -/
def dedupKeepLast (rows : List CsvRow) : List CsvRow :=
  (dedupFirstAux [] rows.reverse).reverse

/-- Model of `ArchiveProject.write_archive_data` (lines 242-283): the
in-memory entries become rows in map order; when the CSV file already
exists its rows are read back, the new rows are concatenated after them
(`pd.concat([existing_df, df])`, line 279) and duplicates on `path` are
dropped keeping the most recent write. -/
def write_archive_data (existing : Option (List CsvRow))
    (entries : List (String × DataEntry)) : List CsvRow :=
  let df := entries.map (fun kv => entryToRow kv.1 kv.2)
  match existing with
  | none => df
  | some ex => dedupKeepLast (ex ++ df)

/-- Model of `ArchiveProject.read_archive_data` (lines 210-225): keep the
rows with `is_deleted` false (`data_frame[~data_frame["is_deleted"]]`) and
build the entry dict row by row — a later row with the same `path`
overwrites the earlier value, as a Python dict assignment does. -/
def read_archive_data (table : List CsvRow) : List (String × DataEntry) :=
  (table.filter (fun r => !r.is_deleted)).foldl
    (fun m r => setEntry m r.path (rowToEntry r)) []

/-! ### Vocabulary for the claims -/

/-- Following the spec's words («equals or is nested under a ProtectedSet
member»): `p` is `q` itself or lies strictly below the directory `q`. -/
def isUnderPath (p q : String) : Bool :=
  p = q || (q ++ "/").toList.isPrefixOf p.toList

/-- The first row of a table carrying the key. -/
def findRow (rows : List CsvRow) (k : String) : Option CsvRow :=
  rows.find? (fun r => r.path = k)

/-- The most recent (last) row of a table carrying the key. -/
def findLastRow (rows : List CsvRow) (k : String) : Option CsvRow :=
  rows.reverse.find? (fun r => r.path = k)

/-- Claim C1 as stated: any path equal to or nested under a protected
member is answered `(False, False)` with no ledger or filesystem mutation,
for every age, caution level and force flag. -/
def protectedInvariantClaim : Prop :=
  ∀ (fs : FS) (env : Env) (st : EngineState) (p : String)
    (caution : Option (Fin 3)) (archive : Bool) (create_time : Option Int)
    (extra : ExtraData) (symlink_path : Option String),
    (∃ q ∈ st.protectedEntries, isUnderPath p q = true) →
    consider_file_for_deletion fs env st p caution archive create_time extra
      symlink_path = ⟨some (false, false), st, []⟩

/-- Claim C2 as stated: for a staged entry considered without force, with
the entry's `delete_time` set at staging to `marked_time + grace(level)`,
the file is deleted exactly when `now >= marked_time + grace(level)`. -/
def gracePeriodGeClaim : Prop :=
  ∀ (fs : FS) (env : Env) (st : EngineState) (p fp : String)
    (fst : FileStat) (de : DataEntry) (lvl : Fin 3) (create_time : Option Int)
    (extra : ExtraData) (symlink_path : Option String),
    p ≠ "" →
    resolveStat fs p = some (fp, fst) →
    fs.islink fp = false →
    pathEntryOf fp ∉ st.protectedEntries →
    findEntry st.entries (pathEntryOf fp) = some de →
    hasDeleteMarker (splitPath fp).2 = true →
    de.delete_time = de.marked_time + deleteThreshold lvl →
    delete_filepath fs fp = true →
    ((consider_file_for_deletion fs env st p (some lvl) false create_time
        extra symlink_path).ret = some (true, false) ↔
      env.today ≥ de.marked_time + deleteThreshold lvl)

/-- Claim C4 as stated: saving and re-loading reproduces every
non-deleted entry with all fields equal, `paths` up to element order. -/
def roundTripClaim : Prop :=
  ∀ (T : List CsvRow) (M : List (String × DataEntry)),
    (M.map Prod.fst).Nodup →
    ∀ k e, findEntry M k = some e → e.is_deleted = false →
      ∃ e', findEntry (read_archive_data (write_archive_data (some T) M)) k
          = some e' ∧
        e'.marked_time = e.marked_time ∧ e'.delete_time = e.delete_time ∧
        e'.size = e.size ∧ e'.is_deleted = e.is_deleted ∧
        (∀ x, x ∈ e'.paths ↔ x ∈ e.paths) ∧
        e'.publish_dir = e.publish_dir ∧ e'.publish_id = e.publish_id ∧
        e'.reason = e.reason

/-- Claim C5 as stated (the «never re-sums» half): folding a concrete path
that the entry already records must leave the entry's size unchanged. -/
def mergeNoResumClaim : Prop :=
  ∀ (fs : FS) (env : Env) (st : EngineState) (p fp : String)
    (fst : FileStat) (de : DataEntry) (caution : Option (Fin 3))
    (create_time : Option Int) (extra : ExtraData)
    (symlink_path : Option String),
    p ≠ "" →
    resolveStat fs p = some (fp, fst) →
    fs.islink fp = false →
    pathEntryOf fp ∉ st.protectedEntries →
    findEntry st.entries (pathEntryOf fp) = some de →
    fp ∈ de.paths →
    ∀ dm, (consider_file_for_deletion fs env st p caution false create_time
        extra symlink_path).ret = some dm →
      ∃ de', findEntry (consider_file_for_deletion fs env st p caution false
          create_time extra symlink_path).st.entries (pathEntryOf fp)
            = some de' ∧ de'.size = de.size

/-- Claim C7 as stated (the propagation half): processing a collection
always completes — no member's outcome is propagated as an exception. -/
def collectionNeverRaisesClaim : Prop :=
  ∀ (fs : FS) (env : Env) (st : EngineState) (members : List String)
    (caution : Option (Fin 3)) (archive : Bool) (create_time : Option Int)
    (extra : ExtraData),
    ∃ v, consider_collection_for_deletion fs env st members caution archive
      create_time extra none = .ok v

/-- Claim C8 as stated: on a path with no ledger entry and no caution
level the engine answers `(False, False)` and mutates nothing. -/
def missingCautionClaim : Prop :=
  ∀ (fs : FS) (env : Env) (st : EngineState) (p : String) (archive : Bool)
    (create_time : Option Int) (extra : ExtraData)
    (symlink_path : Option String),
    st.entries = [] →
    consider_file_for_deletion fs env st p none archive create_time extra
      symlink_path = ⟨some (false, false), st, []⟩

/-- Claim C9 as stated: a not-yet-stale, unstaged file considered without
force is kept — `(False, False)` — with no ledger entry created. -/
def idempotentRerunClaim : Prop :=
  ∀ (fs : FS) (env : Env) (st : EngineState) (p : String)
    (caution : Option (Fin 3)) (create_time : Option Int) (extra : ExtraData)
    (symlink_path : Option String) (fst : FileStat),
    fs.stat p = some fst →
    hasDeleteMarker (splitPath p).2 = false →
    fst.mtime > warningThreshold env caution →
    consider_file_for_deletion fs env st p caution false create_time extra
      symlink_path = ⟨some (false, false), st, []⟩

/-- Claim C10 as stated: every path that is a symlink on disk is answered
`(False, False)` with no ledger or filesystem mutation. -/
def symlinkSkipClaim : Prop :=
  ∀ (fs : FS) (env : Env) (st : EngineState) (p : String)
    (caution : Option (Fin 3)) (archive : Bool) (create_time : Option Int)
    (extra : ExtraData) (symlink_path : Option String),
    fs.islink p = true →
    consider_file_for_deletion fs env st p caution archive create_time extra
      symlink_path = ⟨some (false, false), st, []⟩

end Expunge

namespace Expunge

theorem resolveStat_of_stat (fs : FS) (p : String) (fst : FileStat)
    (h : fs.stat p = some fst) : resolveStat fs p = some (p, fst) := by
  unfold resolveStat
  rw [h]

theorem findEntry_setEntry (m : List (String × DataEntry)) (k k' : String)
    (v : DataEntry) :
    findEntry (setEntry m k' v) k = if k = k' then some v else findEntry m k := by
  induction m with
  | nil =>
    by_cases h : k = k'
    · subst h
      simp [setEntry, findEntry, List.find?]
    · have h' : ¬ (k' = k) := fun he => h he.symm
      simp [setEntry, findEntry, List.find?, h, h']
  | cons a as ih =>
    by_cases h1 : a.1 = k'
    · subst h1
      by_cases h2 : k = a.1
      · subst h2
        simp [setEntry, findEntry, List.find?]
      · have h2' : ¬ (a.1 = k) := fun he => h2 he.symm
        simp [setEntry, findEntry, List.find?, h2, h2']
    · by_cases h2 : a.1 = k
      · have hkk : ¬ k = k' := fun he => h1 (h2.trans he)
        simp [setEntry, findEntry, List.find?, h1, h2, hkk]
      · simp only [setEntry, if_neg h1]
        simp only [findEntry, List.find?] at ih ⊢
        simp [h1, h2, ih]

theorem keys_setEntry_of_none (m : List (String × DataEntry)) (k : String)
    (v : DataEntry) (h : findEntry m k = none) :
    (setEntry m k v).map Prod.fst = m.map Prod.fst ++ [k] := by
  induction m with
  | nil => simp [setEntry]
  | cons a as ih =>
    by_cases h1 : a.1 = k
    · simp [findEntry, List.find?, h1] at h
    · simp only [setEntry, if_neg h1, List.map_cons, List.cons_append]
      congr 1
      apply ih
      simpa [findEntry, List.find?, h1] using h

theorem keys_setEntry_of_some (m : List (String × DataEntry)) (k : String)
    (v de : DataEntry) (h : findEntry m k = some de) :
    (setEntry m k v).map Prod.fst = m.map Prod.fst := by
  induction m with
  | nil => simp [findEntry, List.find?] at h
  | cons a as ih =>
    by_cases h1 : a.1 = k
    · simp [setEntry, h1]
    · simp only [setEntry, if_neg h1, List.map_cons]
      congr 1
      apply ih
      simpa [findEntry, List.find?, h1] using h

theorem consider_keep_of_link (fs : FS) (env : Env) (st : EngineState)
    (p fp : String) (fst : FileStat) (caution : Option (Fin 3))
    (archive : Bool) (create_time : Option Int) (extra : ExtraData)
    (symlink_path : Option String)
    (hres : resolveStat fs p = some (fp, fst))
    (hlink : fs.islink fp = true) :
    consider_file_for_deletion fs env st p caution archive create_time extra
      symlink_path = ⟨some (false, false), st, []⟩ := by
  by_cases hp : p = ""
  · simp [consider_file_for_deletion, hp]
  · unfold consider_file_for_deletion
    rw [if_neg hp, hres]
    simp [hlink]

theorem consider_skip_of_no_caution (fs : FS) (env : Env) (st : EngineState)
    (p fp : String) (fst : FileStat) (archive : Bool)
    (create_time : Option Int) (extra : ExtraData)
    (symlink_path : Option String)
    (hres : resolveStat fs p = some (fp, fst))
    (hlink : fs.islink fp = false)
    (hprot : pathEntryOf fp ∉ st.protectedEntries)
    (hentry : findEntry st.entries (pathEntryOf fp) = none) :
    consider_file_for_deletion fs env st p none archive create_time extra
      symlink_path = ⟨some (false, false), st, []⟩ := by
  by_cases hp : p = ""
  · simp [consider_file_for_deletion, hp]
  · have hef : entryFor env st (pathEntryOf fp) none extra = none := by
      unfold entryFor
      rw [hentry]
    unfold consider_file_for_deletion
    rw [if_neg hp, hres]
    simp [hlink, hprot, hef]

theorem consider_delete_success (fs : FS) (env : Env) (st : EngineState)
    (p fp : String) (fst : FileStat) (de : DataEntry)
    (caution : Option (Fin 3)) (archive : Bool) (create_time : Option Int)
    (extra : ExtraData) (symlink_path : Option String)
    (hp : p ≠ "")
    (hres : resolveStat fs p = some (fp, fst))
    (hlink : fs.islink fp = false)
    (hprot : pathEntryOf fp ∉ st.protectedEntries)
    (hde : entryFor env st (pathEntryOf fp) caution extra = some de)
    (hbranch : hasDeleteMarker (splitPath fp).2 = true ∨ archive = true)
    (htime : env.today > de.delete_time ∨ archive = true)
    (hdel : delete_filepath fs fp = true) :
    consider_file_for_deletion fs env st p caution archive create_time extra
      symlink_path =
      ⟨some (true, false),
        { st with
            entries := setEntry st.entries (pathEntryOf fp)
              (foldDeleted de fp (get_filepath_size fs fp fst)),
            total_size_deleted :=
              st.total_size_deleted + get_filepath_size fs fp fst },
        [.deletePath fp]⟩ := by
  unfold consider_file_for_deletion
  rw [if_neg hp, hres]
  have hb : (hasDeleteMarker (splitPath fp).2 || archive) = true := by
    rcases hbranch with h | h <;> simp [h]
  have ht : (decide (env.today > de.delete_time) || archive) = true := by
    rcases htime with h | h <;> simp [h]
  simp [hlink, hprot, hde, hb, ht, hdel]

theorem consider_delete_fail (fs : FS) (env : Env) (st : EngineState)
    (p fp : String) (fst : FileStat) (de : DataEntry)
    (caution : Option (Fin 3)) (archive : Bool) (create_time : Option Int)
    (extra : ExtraData) (symlink_path : Option String)
    (hp : p ≠ "")
    (hres : resolveStat fs p = some (fp, fst))
    (hlink : fs.islink fp = false)
    (hprot : pathEntryOf fp ∉ st.protectedEntries)
    (hde : entryFor env st (pathEntryOf fp) caution extra = some de)
    (hbranch : hasDeleteMarker (splitPath fp).2 = true ∨ archive = true)
    (htime : env.today > de.delete_time ∨ archive = true)
    (hdel : delete_filepath fs fp = false) :
    consider_file_for_deletion fs env st p caution archive create_time extra
      symlink_path = ⟨some (false, false), st, []⟩ := by
  unfold consider_file_for_deletion
  rw [if_neg hp, hres]
  have hb : (hasDeleteMarker (splitPath fp).2 || archive) = true := by
    rcases hbranch with h | h <;> simp [h]
  have ht : (decide (env.today > de.delete_time) || archive) = true := by
    rcases htime with h | h <;> simp [h]
  simp [hlink, hprot, hde, hb, ht, hdel]

theorem consider_delete_wait (fs : FS) (env : Env) (st : EngineState)
    (p fp : String) (fst : FileStat) (de : DataEntry)
    (caution : Option (Fin 3)) (create_time : Option Int)
    (extra : ExtraData) (symlink_path : Option String)
    (hp : p ≠ "")
    (hres : resolveStat fs p = some (fp, fst))
    (hlink : fs.islink fp = false)
    (hprot : pathEntryOf fp ∉ st.protectedEntries)
    (hde : entryFor env st (pathEntryOf fp) caution extra = some de)
    (hm : hasDeleteMarker (splitPath fp).2 = true)
    (htime : ¬ env.today > de.delete_time) :
    consider_file_for_deletion fs env st p caution false create_time extra
      symlink_path = ⟨some (false, false), st, []⟩ := by
  unfold consider_file_for_deletion
  rw [if_neg hp, hres]
  simp [hlink, hprot, hde, hm, htime]

theorem consider_stage (fs : FS) (env : Env) (st : EngineState)
    (p fp : String) (fst : FileStat) (de : DataEntry)
    (caution : Option (Fin 3)) (extra : ExtraData)
    (symlink_path : Option String)
    (hp : p ≠ "")
    (hres : resolveStat fs p = some (fp, fst))
    (hlink : fs.islink fp = false)
    (hprot : pathEntryOf fp ∉ st.protectedEntries)
    (hde : entryFor env st (pathEntryOf fp) caution extra = some de)
    (hm : hasDeleteMarker (splitPath fp).2 = false)
    (hold : ¬ fst.mtime > warningThreshold env caution) :
    consider_file_for_deletion fs env st p caution false none extra
      symlink_path =
      ⟨some (false, true),
        { st with
            entries := setEntry st.entries (pathEntryOf fp)
              (foldStaged de (stagedName env fp)
                (get_filepath_size fs fp fst)) },
        [.renamePath fp (stagedName env fp)] ++
          (match symlink_path with
            | some sp => [.makeLink sp fp]
            | none => [])⟩ := by
  unfold consider_file_for_deletion
  rw [if_neg hp, hres]
  simp [hlink, hprot, hde, hm, hold]

theorem findRow_isSome_iff (rows : List CsvRow) (k : String) :
    (findRow rows k).isSome ↔ k ∈ rows.map CsvRow.path := by
  unfold findRow
  rw [List.find?_isSome]
  simp [List.mem_map, eq_comm]

theorem findRow_eq_none_iff (rows : List CsvRow) (k : String) :
    findRow rows k = none ↔ k ∉ rows.map CsvRow.path := by
  rw [← findRow_isSome_iff rows k]
  cases findRow rows k <;> simp

theorem findRow_append (xs ys : List CsvRow) (k : String) :
    findRow (xs ++ ys) k = (findRow xs k).or (findRow ys k) := by
  simp [findRow, List.find?_append]

theorem findRow_cons_of_pos (r : CsvRow) (rs : List CsvRow) (k : String)
    (h : r.path = k) : findRow (r :: rs) k = some r := by
  unfold findRow
  exact List.find?_cons_of_pos _ (by simp [h])

theorem findRow_cons_of_neg (r : CsvRow) (rs : List CsvRow) (k : String)
    (h : ¬ r.path = k) : findRow (r :: rs) k = findRow rs k := by
  unfold findRow
  exact List.find?_cons_of_neg _ (by simp [h])

theorem dedupFirstAux_find_of_mem (seen : List String) (l : List CsvRow)
    (k : String) (h : k ∈ seen) :
    findRow (dedupFirstAux seen l) k = none := by
  induction l generalizing seen with
  | nil => simp [dedupFirstAux, findRow, List.find?]
  | cons r rs ih =>
    by_cases hm : r.path ∈ seen
    · simpa [dedupFirstAux, hm] using ih seen h
    · have hk : ¬ r.path = k := fun he => hm (he ▸ h)
      simp only [dedupFirstAux, if_neg hm]
      rw [findRow_cons_of_neg _ _ _ hk]
      exact ih (r.path :: seen) (List.mem_cons_of_mem _ h)

theorem dedupFirstAux_find_of_not_mem (seen : List String) (l : List CsvRow)
    (k : String) (h : k ∉ seen) :
    findRow (dedupFirstAux seen l) k = findRow l k := by
  induction l generalizing seen with
  | nil => simp [dedupFirstAux]
  | cons r rs ih =>
    by_cases hm : r.path ∈ seen
    · have hk : ¬ r.path = k := fun he => h (he ▸ hm)
      simp only [dedupFirstAux, if_pos hm]
      rw [ih seen h, findRow_cons_of_neg _ _ _ hk]
    · by_cases hk : r.path = k
      · simp only [dedupFirstAux, if_neg hm]
        rw [findRow_cons_of_pos _ _ _ hk, findRow_cons_of_pos _ _ _ hk]
      · have h2 : k ∉ r.path :: seen := by
          intro hc
          rcases List.mem_cons.mp hc with hc | hc
          · exact hk hc.symm
          · exact h hc
        simp only [dedupFirstAux, if_neg hm]
        rw [findRow_cons_of_neg _ _ _ hk, findRow_cons_of_neg _ _ _ hk]
        exact ih (r.path :: seen) h2

theorem dedupFirstAux_keys_not_seen (seen : List String) (l : List CsvRow) :
    ∀ k ∈ (dedupFirstAux seen l).map CsvRow.path, k ∉ seen := by
  induction l generalizing seen with
  | nil => simp [dedupFirstAux]
  | cons r rs ih =>
    by_cases hm : r.path ∈ seen
    · simpa [dedupFirstAux, hm] using ih seen
    · intro k hk
      simp only [dedupFirstAux, if_neg hm, List.map_cons, List.mem_cons] at hk
      rcases hk with hk | hk
      · exact hk ▸ hm
      · intro hs
        exact ih (r.path :: seen) k hk (List.mem_cons_of_mem _ hs)

theorem dedupFirstAux_keys_nodup (seen : List String) (l : List CsvRow) :
    ((dedupFirstAux seen l).map CsvRow.path).Nodup := by
  induction l generalizing seen with
  | nil => simp [dedupFirstAux]
  | cons r rs ih =>
    by_cases hm : r.path ∈ seen
    · simpa [dedupFirstAux, hm] using ih seen
    · simp only [dedupFirstAux, if_neg hm, List.map_cons, List.nodup_cons]
      refine ⟨fun hc => ?_, ih (r.path :: seen)⟩
      exact dedupFirstAux_keys_not_seen (r.path :: seen) rs r.path hc
        (List.mem_cons_self _ _)

theorem findRow_reverse_of_nodup (l : List CsvRow) (k : String)
    (h : (l.map CsvRow.path).Nodup) :
    findRow l.reverse k = findRow l k := by
  induction l with
  | nil => simp
  | cons r rs ih =>
    simp only [List.map_cons, List.nodup_cons] at h
    rw [List.reverse_cons, findRow_append]
    by_cases hk : r.path = k
    · have hnone : findRow rs.reverse k = none := by
        rw [findRow_eq_none_iff]
        intro hc
        simp only [List.map_reverse, List.mem_reverse] at hc
        exact h.1 (hk ▸ hc)
      rw [hnone, Option.none_or, findRow_cons_of_pos _ _ _ hk,
        findRow_cons_of_pos _ _ _ hk]
    · have hone : findRow [r] k = none := by
        rw [findRow_eq_none_iff]
        simp only [List.map_cons, List.map_nil, List.mem_singleton]
        exact fun he => hk he.symm
      rw [hone, Option.or_none, ih h.2, findRow_cons_of_neg _ _ _ hk]

theorem findRow_dedupKeepLast (rows : List CsvRow) (k : String) :
    findRow (dedupKeepLast rows) k = findLastRow rows k := by
  unfold dedupKeepLast findLastRow
  rw [findRow_reverse_of_nodup _ k (dedupFirstAux_keys_nodup [] rows.reverse)]
  exact dedupFirstAux_find_of_not_mem [] rows.reverse k (by simp)

theorem dedupKeepLast_keys_nodup (rows : List CsvRow) :
    ((dedupKeepLast rows).map CsvRow.path).Nodup := by
  unfold dedupKeepLast
  rw [List.map_reverse, List.nodup_reverse]
  exact dedupFirstAux_keys_nodup [] rows.reverse

theorem findLastRow_eq (rows : List CsvRow) (k : String) :
    findLastRow rows k = findRow rows.reverse k := rfl

theorem keys_entryRows (M : List (String × DataEntry)) :
    (M.map (fun kv => entryToRow kv.1 kv.2)).map CsvRow.path = M.map Prod.fst := by
  induction M with
  | nil => rfl
  | cons a as ih => simp [entryToRow, ih]

theorem findRow_entryRows (M : List (String × DataEntry)) (k : String) :
    findRow (M.map (fun kv => entryToRow kv.1 kv.2)) k =
      (M.find? (fun kv => kv.1 = k)).map (fun kv => entryToRow kv.1 kv.2) := by
  induction M with
  | nil => simp [findRow, List.find?]
  | cons a as ih =>
    by_cases h : a.1 = k
    · rw [List.map_cons, findRow_cons_of_pos _ _ _ h,
        List.find?_cons_of_pos _ (by simp [h])]
      rfl
    · rw [List.map_cons, findRow_cons_of_neg _ _ _ h,
        List.find?_cons_of_neg _ (by simp [h])]
      exact ih

theorem find?_of_findEntry_some (M : List (String × DataEntry)) (k : String)
    (e : DataEntry) (he : findEntry M k = some e) :
    M.find? (fun kv => kv.1 = k) = some (k, e) := by
  unfold findEntry at he
  cases hf : M.find? (fun kv => kv.1 = k) with
  | none => rw [hf] at he; simp at he
  | some kv =>
    rw [hf] at he
    have h1 : kv.1 = k := by
      have := List.find?_some hf
      simpa using this
    have h2 : kv.2 = e := by simpa using he
    rw [← h1, ← h2]

theorem find?_of_findEntry_none (M : List (String × DataEntry)) (k : String)
    (he : findEntry M k = none) :
    M.find? (fun kv => kv.1 = k) = none := by
  unfold findEntry at he
  cases hf : M.find? (fun kv => kv.1 = k) with
  | none => rfl
  | some kv => rw [hf] at he; simp at he

theorem findRow_write_of_findEntry (T : List CsvRow)
    (M : List (String × DataEntry)) (k : String) (e : DataEntry)
    (hM : (M.map Prod.fst).Nodup) (he : findEntry M k = some e) :
    findRow (write_archive_data (some T) M) k = some (entryToRow k e) := by
  unfold write_archive_data
  rw [findRow_dedupKeepLast, findLastRow_eq, List.reverse_append,
    findRow_append]
  have hdf : findRow ((M.map (fun kv => entryToRow kv.1 kv.2)).reverse) k =
      some (entryToRow k e) := by
    have hnd : ((M.map (fun kv => entryToRow kv.1 kv.2)).map CsvRow.path).Nodup := by
      rw [keys_entryRows]
      exact hM
    rw [findRow_reverse_of_nodup _ _ hnd, findRow_entryRows,
      find?_of_findEntry_some M k e he]
    rfl
  rw [hdf]
  rfl

theorem findRow_write_of_findEntry_none (T : List CsvRow)
    (M : List (String × DataEntry)) (k : String)
    (he : findEntry M k = none) :
    findRow (write_archive_data (some T) M) k = findLastRow T k := by
  unfold write_archive_data
  rw [findRow_dedupKeepLast, findLastRow_eq, List.reverse_append,
    findRow_append]
  have hdf : findRow ((M.map (fun kv => entryToRow kv.1 kv.2)).reverse) k =
      none := by
    rw [findRow_eq_none_iff]
    intro hc
    have hmem : k ∈ (M.map (fun kv => entryToRow kv.1 kv.2)).map CsvRow.path := by
      rw [List.map_reverse, List.mem_reverse] at hc
      exact hc
    have : (findRow (M.map (fun kv => entryToRow kv.1 kv.2)) k).isSome := by
      rw [findRow_isSome_iff]
      exact hmem
    rw [findRow_entryRows, find?_of_findEntry_none M k he] at this
    simp at this
  rw [hdf, Option.none_or]
  rfl

theorem findEntry_fold_setEntry (rows : List CsvRow)
    (m : List (String × DataEntry)) (k : String) :
    findEntry (rows.foldl (fun m r => setEntry m r.path (rowToEntry r)) m) k =
      match findLastRow rows k with
      | some r => some (rowToEntry r)
      | none => findEntry m k := by
  induction rows generalizing m with
  | nil => simp [findLastRow, findRow, List.find?]
  | cons r rest ih =>
    rw [List.foldl_cons, ih]
    have hsplit : findLastRow (r :: rest) k =
        (findLastRow rest k).or (findRow [r] k) := by
      rw [findLastRow_eq, List.reverse_cons, findRow_append, ← findLastRow_eq]
    rw [hsplit]
    cases h : findLastRow rest k with
    | some r' => rfl
    | none =>
      by_cases hk : r.path = k
      · rw [findRow_cons_of_pos _ _ _ hk]
        rw [findEntry_setEntry, if_pos hk.symm]
        rfl
      · have : findRow [r] k = none := by
          rw [findRow_eq_none_iff]
          simp only [List.map_cons, List.map_nil, List.mem_singleton]
          exact fun he => hk he.symm
        rw [this]
        rw [findEntry_setEntry, if_neg (fun he => hk he.symm)]
        rfl

theorem findRow_filter_of_nodup (rows : List CsvRow) (pred : CsvRow → Bool)
    (k : String) (h : (rows.map CsvRow.path).Nodup) :
    findRow (rows.filter pred) k =
      match findRow rows k with
      | some r => if pred r then some r else none
      | none => none := by
  induction rows with
  | nil => simp [findRow, List.find?]
  | cons r rs ih =>
    simp only [List.map_cons, List.nodup_cons] at h
    by_cases hk : r.path = k
    · rw [findRow_cons_of_pos _ _ _ hk]
      by_cases hp : pred r
      · rw [List.filter_cons_of_pos hp, findRow_cons_of_pos _ _ _ hk]
        simp [hp]
      · rw [List.filter_cons_of_neg (by simpa using hp)]
        have hnone : findRow (rs.filter pred) k = none := by
          rw [findRow_eq_none_iff]
          intro hc
          obtain ⟨x, hx, hxp⟩ := List.mem_map.mp hc
          have : k ∈ rs.map CsvRow.path :=
            List.mem_map.mpr ⟨x, List.mem_of_mem_filter hx, hxp⟩
          exact h.1 (hk ▸ this)
        rw [hnone]
        simp [hp]
    · rw [findRow_cons_of_neg _ _ _ hk]
      by_cases hp : pred r
      · rw [List.filter_cons_of_pos hp, findRow_cons_of_neg _ _ _ hk]
        exact ih h.2
      · rw [List.filter_cons_of_neg (by simpa using hp)]
        exact ih h.2

theorem findEntry_read_of_nodup (rows : List CsvRow) (k : String)
    (h : (rows.map CsvRow.path).Nodup) :
    findEntry (read_archive_data rows) k =
      match findRow rows k with
      | some r => if r.is_deleted then none else some (rowToEntry r)
      | none => none := by
  unfold read_archive_data
  rw [findEntry_fold_setEntry]
  have hnd : ((rows.filter (fun r => !r.is_deleted)).map CsvRow.path).Nodup :=
    List.Nodup.sublist (List.Sublist.map _ (List.filter_sublist rows)) h
  rw [findLastRow_eq, findRow_reverse_of_nodup _ _ hnd,
    findRow_filter_of_nodup _ _ _ h]
  cases findRow rows k with
  | none => rfl
  | some r =>
    by_cases hd : r.is_deleted <;> simp [hd, findEntry, List.find?]

theorem write_keys_nodup (T : List CsvRow) (M : List (String × DataEntry)) :
    ((write_archive_data (some T) M).map CsvRow.path).Nodup := by
  unfold write_archive_data
  exact dedupKeepLast_keys_nodup _

theorem rowToEntry_entryToRow (k : String) (e : DataEntry) :
    rowToEntry (entryToRow k e) =
      { e with publish_dir := parseCell (e.publish_dir.getD "")
               publish_id := parseCell (e.publish_id.getD "")
               reason := parseCell (e.reason.getD "") } := rfl

theorem considerLoop_ok (fs : FS) (env : Env) (caution : Option (Fin 3))
    (archive : Bool) (create_time : Option Int) (extra : ExtraData) :
    ∀ (members : List String) (st : EngineState) (i : Nat) (d m : Bool)
      (acts : List FsAct) (l : List (Bool × Bool)),
      memberOutcomes fs env caution archive create_time extra members st =
        some l →
      ∃ st' acts',
        considerLoop fs env caution archive create_time extra none i members
          st d m acts =
          .ok ((d || l.any (fun dm => dm.1), m || l.any (fun dm => dm.2)),
            st', acts') := by
  intro members
  induction members with
  | nil =>
    intro st i d m acts l h
    simp only [memberOutcomes, Option.some.injEq] at h
    subst h
    exact ⟨st, acts, by simp [considerLoop]⟩
  | cons p rest ih =>
    intro st i d m acts l h
    simp only [memberOutcomes] at h
    cases hr : (consider_file_for_deletion fs env st p caution archive
        create_time extra none).ret with
    | none => rw [hr] at h; simp at h
    | some dm =>
      rw [hr] at h
      cases hrest : memberOutcomes fs env caution archive create_time extra
          rest (consider_file_for_deletion fs env st p caution archive
            create_time extra none).st with
      | none => rw [hrest] at h; simp at h
      | some l2 =>
        rw [hrest] at h
        have hl : l = dm :: l2 := by simpa using h.symm
        subst hl
        obtain ⟨st', acts', hloop⟩ := ih
          (consider_file_for_deletion fs env st p caution archive create_time
            extra none).st
          (i + 1) (d || dm.1) (m || dm.2)
          (acts ++ (consider_file_for_deletion fs env st p caution archive
            create_time extra none).acts) l2 hrest
        refine ⟨st', acts', ?_⟩
        simp only [considerLoop, hr]
        rw [hloop]
        simp [Bool.or_assoc]

/-! ### Concrete instances

Small filesystems and states used to instantiate the theorems; all paths
follow the studio layout the scanners walk (`/proj/<code>/...`). -/

/-- A generic run environment: import instant and decision instant agree. -/
def env0 : Env := { timeNow := 10000000, today := 10000000, dateStr := "2024-03-01" }

/-- An environment whose decision instant sits exactly at the end of the
level-0 grace period of an entry staged at `env0.timeNow`. -/
def envBoundary : Env := { timeNow := 10000000, today := 10172800, dateStr := "2024-03-01" }

/-- An environment whose decision instant is past that grace period. -/
def envLate : Env := { timeNow := 10000000, today := 10172801, dateStr := "2024-03-01" }

def protDir : String := "/proj/ab/shots/_2d_shot"

def nestedFile : String := "/proj/ab/shots/_2d_shot/old.exr"

def stProt : EngineState :=
  { entries := [], protectedEntries := [protDir], total_size_deleted := 0 }

def fsProt : FS :=
  { stat := fun p => if p = protDir ∨ p = nestedFile then some ⟨1, 7⟩ else none
    islink := fun _ => false
    glob := fun _ => []
    isfile := fun p => p = nestedFile
    isdir := fun p => p = protDir
    removeOk := fun _ => true
    duSize := fun _ => 4096 }

def stEmpty : EngineState :=
  { entries := [], protectedEntries := [], total_size_deleted := 0 }

def plainFile : String := "/proj/ab/x.exr"

def fsPlain : FS :=
  { stat := fun p => if p = plainFile then some ⟨1, 7⟩ else none
    islink := fun _ => false
    glob := fun _ => []
    isfile := fun p => p = plainFile
    isdir := fun _ => false
    removeOk := fun _ => true
    duSize := fun _ => 0 }

def youngFile : String := "/proj/ab/young.exr"

def fsYoung : FS :=
  { stat := fun p => if p = youngFile then some ⟨9990000, 7⟩ else none
    islink := fun _ => false
    glob := fun _ => []
    isfile := fun p => p = youngFile
    isdir := fun _ => false
    removeOk := fun _ => true
    duSize := fun _ => 0 }

def youngProt : String := "/proj/ab/shots/_2d_shot/new.exr"

def stProtYoung : EngineState :=
  { entries := [], protectedEntries := [youngProt], total_size_deleted := 0 }

def fsYoungProt : FS :=
  { stat := fun p => if p = youngProt then some ⟨9990000, 7⟩ else none
    islink := fun _ => false
    glob := fun _ => []
    isfile := fun p => p = youngProt
    isdir := fun _ => false
    removeOk := fun _ => true
    duSize := fun _ => 0 }

def brokenLink : String := "/proj/ab/lnk.exr"

def stagedLnk : String := "/proj/ab/__DELETE__(2024-02-20)lnk.exr"

/-- A broken symlink at `brokenLink` (stat raises, islink holds) beside its
already-staged real equivalent, which the glob fallback finds. -/
def fsBroken : FS :=
  { stat := fun p => if p = stagedLnk then some ⟨1, 7⟩ else none
    islink := fun p => p = brokenLink
    glob := fun pat => if pat = "/proj/ab/*lnk.exr" then [stagedLnk] else []
    isfile := fun p => p = stagedLnk
    isdir := fun _ => false
    removeOk := fun _ => true
    duSize := fun _ => 0 }

def validLink : String := "/proj/ab/sym.exr"

def fsValidLink : FS :=
  { stat := fun p => if p = validLink then some ⟨1, 7⟩ else none
    islink := fun p => p = validLink
    glob := fun _ => []
    isfile := fun p => p = validLink
    isdir := fun _ => false
    removeOk := fun _ => true
    duSize := fun _ => 0 }

/-! ### C1 — the protected check -/

/-- C1 (counterexample): the protection test at expunge.py line 1226 is an
exact set-membership test on the computed ledger key, not a prefix test: a
file strictly below a protected directory is not protected — under the
force flag it is deleted outright, returning `(True, False)` and growing the
total, against the claim's `(False, False)`. -/
theorem protected_nesting_cex : ¬ protectedInvariantClaim := by
  intro h
  have hc := h fsProt env0 stProt nestedFile (some 1) true none {} none
    ⟨protDir, by decide, by decide⟩
  have hr := congrArg ConsiderResult.ret hc
  exact absurd hr (by decide)

/-- C1 (amended): protection applies exactly when the computed `path_entry`
is itself a member of the protected set; the engine then returns early with
no ledger mutation and no filesystem action — through the bare `return` of
line 1228, i.e. Python `None` rather than `(False, False)` — for every age,
caution level and force flag. -/
theorem protected_key_skips (fs : FS) (env : Env) (st : EngineState)
    (p : String) (caution : Option (Fin 3)) (archive : Bool)
    (create_time : Option Int) (extra : ExtraData)
    (symlink_path : Option String) (fp : String) (fst : FileStat)
    (hp : p ≠ "")
    (hres : resolveStat fs p = some (fp, fst))
    (hlink : fs.islink fp = false)
    (hprot : pathEntryOf fp ∈ st.protectedEntries) :
    consider_file_for_deletion fs env st p caution archive create_time extra
      symlink_path = ⟨none, st, []⟩ := by
  unfold consider_file_for_deletion
  rw [if_neg hp, hres]
  simp [hlink, hprot]

/-- C1 (witness): the protected directory itself, considered with force, is
skipped with no mutation. -/
theorem protected_key_skips_witness :
    consider_file_for_deletion fsProt env0 stProt protDir (some 1) true none
      {} none = ⟨none, stProt, []⟩ :=
  protected_key_skips fsProt env0 stProt protDir (some 1) true none {} none
    protDir ⟨1, 7⟩ (by decide) (by decide) (by decide) (by decide)

/-! ### C8 — missing caution level on an entry-less path -/

/-- C8 (counterexample): for a protected path with no ledger entry and no
caution level the engine does not return `(False, False)` — the protected
check fires first with the bare `return`, i.e. `None`. -/
theorem missing_caution_returns_pair_cex : ¬ missingCautionClaim := by
  intro h
  have hc := h fsProt env0 stProt protDir false none {} none rfl
  have hr := congrArg ConsiderResult.ret hc
  exact absurd hr (by decide)

/-- C8 (amended): on a path whose key is not protected, with no ledger
entry and the caution level omitted, the engine logs an error and skips:
`(False, False)`, no ledger mutation, no filesystem action
(expunge.py lines 1236-1241). -/
theorem missing_caution_skips (fs : FS) (env : Env) (st : EngineState)
    (p fp : String) (fst : FileStat) (archive : Bool)
    (create_time : Option Int) (extra : ExtraData)
    (symlink_path : Option String)
    (hres : resolveStat fs p = some (fp, fst))
    (hlink : fs.islink fp = false)
    (hprot : pathEntryOf fp ∉ st.protectedEntries)
    (hentry : findEntry st.entries (pathEntryOf fp) = none) :
    consider_file_for_deletion fs env st p none archive create_time extra
      symlink_path = ⟨some (false, false), st, []⟩ :=
  consider_skip_of_no_caution fs env st p fp fst archive create_time extra
    symlink_path hres hlink hprot hentry

/-- C8 (witness): an ordinary unprotected file, empty ledger, caution
omitted. -/
theorem missing_caution_skips_witness :
    consider_file_for_deletion fsPlain env0 stEmpty plainFile none false none
      {} none = ⟨some (false, false), stEmpty, []⟩ :=
  missing_caution_skips fsPlain env0 stEmpty plainFile plainFile ⟨1, 7⟩ false
    none {} none (by decide) (by decide) (by decide) (by decide)

/-! ### C9 — idempotent re-run on a not-yet-stale file -/

/-- C9 (counterexample): a not-yet-stale file whose key sits in the
protected set is answered with the bare `return` (`None`), not
`(False, False)`. -/
theorem idempotent_rerun_cex : ¬ idempotentRerunClaim := by
  intro h
  have hc := h fsYoungProt env0 stProtYoung youngProt (some 0) none {} none
    ⟨9990000, 7⟩ (by decide) (by decide) (by decide)
  have hr := congrArg ConsiderResult.ret hc
  exact absurd hr (by decide)

/-- C9 (amended): for a not-yet-stale file (modification time above the
warning threshold), unstaged, considered without force and with an
unprotected key, both of two consecutive calls return `(False, False)` and
the state after them is the starting state — no entry, no duplicate row, no
filesystem action (expunge.py line 1286). -/
theorem young_file_keep_twice (fs : FS) (env : Env) (st : EngineState)
    (p : String) (caution : Option (Fin 3)) (create_time : Option Int)
    (extra : ExtraData) (symlink_path : Option String) (fst : FileStat)
    (hstat : fs.stat p = some fst)
    (hname : hasDeleteMarker (splitPath p).2 = false)
    (hyoung : fst.mtime > warningThreshold env caution)
    (hprot : pathEntryOf p ∉ st.protectedEntries) :
    consider_file_for_deletion fs env st p caution false create_time extra
      symlink_path = ⟨some (false, false), st, []⟩ ∧
    consider_file_for_deletion fs env
      (consider_file_for_deletion fs env st p caution false create_time extra
        symlink_path).st p caution false create_time extra symlink_path =
      ⟨some (false, false), st, []⟩ := by
  have h1 : consider_file_for_deletion fs env st p caution false create_time
      extra symlink_path = ⟨some (false, false), st, []⟩ := by
    by_cases hp : p = ""
    · simp [consider_file_for_deletion, hp]
    · have hres : resolveStat fs p = some (p, fst) :=
        resolveStat_of_stat fs p fst hstat
      unfold consider_file_for_deletion
      rw [if_neg hp, hres]
      by_cases hl : fs.islink p
      · simp [hl]
      · simp only [hl, if_false, Bool.false_eq_true]
        simp only [hprot, if_false, ite_false]
        cases hef : entryFor env st (pathEntryOf p) caution extra with
        | none => simp
        | some de =>
          simp only [hname, Bool.false_or, if_false]
          cases create_time with
          | none => simp [hyoung, not_lt_of_gt, le_of_lt]
          | some ct =>
            by_cases hct : fst.mtime > ct
            · simp [hct]
            · simp [hct, hyoung]
  exact ⟨h1, by rw [h1]; exact h1⟩

/-- C9 (witness): a young unprotected file, considered twice. -/
theorem young_file_keep_twice_witness :
    consider_file_for_deletion fsYoung env0 stEmpty youngFile (some 0) false
      none {} none = ⟨some (false, false), stEmpty, []⟩ ∧
    consider_file_for_deletion fsYoung env0
      (consider_file_for_deletion fsYoung env0 stEmpty youngFile (some 0)
        false none {} none).st youngFile (some 0) false none {} none =
      ⟨some (false, false), stEmpty, []⟩ :=
  young_file_keep_twice fsYoung env0 stEmpty youngFile (some 0) none {} none
    ⟨9990000, 7⟩ (by decide) (by decide) (by decide) (by decide)

/-! ### C10 — symlinks -/

/-- C10 (counterexample): a broken symlink (its stat raises) whose
already-staged equivalent matches the glob fallback is retargeted at lines
1204-1208, and the staged file is then deleted under force: the call returns
`(True, False)`, not `(False, False)`. -/
theorem symlink_broken_cex : ¬ symlinkSkipClaim := by
  intro h
  have hc := h fsBroken env0 stEmpty brokenLink (some 0) true none {} none
    (by decide)
  have hr := congrArg ConsiderResult.ret hc
  exact absurd hr (by decide)

/-- C10 (amended): every path whose stat succeeds and which is a symlink is
skipped — `(False, False)`, no ledger mutation, no filesystem action
(expunge.py lines 1213-1215); only a broken symlink can bypass the check by
being retargeted to its staged equivalent by the glob fallback. -/
theorem symlink_skip (fs : FS) (env : Env) (st : EngineState) (p : String)
    (caution : Option (Fin 3)) (archive : Bool) (create_time : Option Int)
    (extra : ExtraData) (symlink_path : Option String) (fst : FileStat)
    (hstat : fs.stat p = some fst)
    (hlink : fs.islink p = true) :
    consider_file_for_deletion fs env st p caution archive create_time extra
      symlink_path = ⟨some (false, false), st, []⟩ :=
  consider_keep_of_link fs env st p p fst caution archive create_time extra
    symlink_path (resolveStat_of_stat fs p fst hstat) hlink

/-- C10 (witness): a live symlink is skipped with no mutation. -/
theorem symlink_skip_witness :
    consider_file_for_deletion fsValidLink env0 stEmpty validLink (some 0)
      true none {} none = ⟨some (false, false), stEmpty, []⟩ :=
  symlink_skip fsValidLink env0 stEmpty validLink (some 0) true none {} none
    ⟨1, 7⟩ (by decide) (by decide)

/-! ### C2 — the grace period -/

def stagedOld : String := "/proj/ab/__DELETE__(2024-02-20)old.exr"

def keyOld : String := "/proj/ab/old.exr"

/-- An entry staged at `env0.timeNow` under caution level 0. -/
def deStaged : DataEntry :=
  { marked_time := 10000000
    delete_time := 10000000 + 172800
    size := 7
    is_deleted := false
    paths := [stagedOld] }

def stStaged : EngineState :=
  { entries := [(keyOld, deStaged)], protectedEntries := [],
    total_size_deleted := 0 }

def fsStaged : FS :=
  { stat := fun p => if p = stagedOld then some ⟨1, 7⟩ else none
    islink := fun _ => false
    glob := fun _ => []
    isfile := fun p => p = stagedOld
    isdir := fun _ => false
    removeOk := fun _ => true
    duSize := fun _ => 0 }

/-- C2 (counterexample): at `now = marked_time + grace_period(level)`
exactly, the claim demands `Delete` (`now >= ...`), but the comparison at
expunge.py line 1255 is strict (`datetime.today() > delete_time`), so the
engine keeps the file. -/
theorem grace_period_geq_cex : ¬ gracePeriodGeClaim := by
  intro h
  have hiff := h fsStaged envBoundary stStaged stagedOld stagedOld ⟨1, 7⟩
    deStaged 0 none {} none (by decide) (by decide) (by decide) (by decide)
    (by decide) (by decide) (by decide) (by decide)
  have hr := hiff.mpr (by decide)
  exact absurd hr (by decide)

/-- C2 (amended): for a staged entry considered without force, whose
`delete_time` was set at staging to `marked_time + grace_period(level)`,
the file is deleted iff `now > marked_time + grace_period(level)` — a
strict comparison — and at or before that instant the call returns
`(False, False)` with no mutation, for all three caution levels. -/
theorem grace_period_strict_delete (fs : FS) (env : Env) (st : EngineState)
    (p fp : String) (fst : FileStat) (de : DataEntry) (lvl : Fin 3)
    (create_time : Option Int) (extra : ExtraData)
    (symlink_path : Option String)
    (hp : p ≠ "")
    (hres : resolveStat fs p = some (fp, fst))
    (hlink : fs.islink fp = false)
    (hprot : pathEntryOf fp ∉ st.protectedEntries)
    (hde : findEntry st.entries (pathEntryOf fp) = some de)
    (hm : hasDeleteMarker (splitPath fp).2 = true)
    (hgrace : de.delete_time = de.marked_time + deleteThreshold lvl)
    (hdel : delete_filepath fs fp = true) :
    ((consider_file_for_deletion fs env st p (some lvl) false create_time
        extra symlink_path).ret = some (true, false) ↔
      env.today > de.marked_time + deleteThreshold lvl) ∧
    (env.today ≤ de.marked_time + deleteThreshold lvl →
      consider_file_for_deletion fs env st p (some lvl) false create_time
        extra symlink_path = ⟨some (false, false), st, []⟩) := by
  have hef : entryFor env st (pathEntryOf fp) (some lvl) extra = some de := by
    unfold entryFor
    rw [hde]
  have hwait : ∀ hle : ¬ env.today > de.marked_time + deleteThreshold lvl,
      consider_file_for_deletion fs env st p (some lvl) false create_time
        extra symlink_path = ⟨some (false, false), st, []⟩ := by
    intro hle
    exact consider_delete_wait fs env st p fp fst de (some lvl) create_time
      extra symlink_path hp hres hlink hprot hef hm (hgrace ▸ hle)
  constructor
  · constructor
    · intro hret
      by_contra hnot
      rw [hwait hnot] at hret
      simp at hret
    · intro ht
      have hs := consider_delete_success fs env st p fp fst de (some lvl)
        false create_time extra symlink_path hp hres hlink hprot hef
        (Or.inl hm) (Or.inl (hgrace ▸ ht)) hdel
      rw [hs]
  · intro hle
    exact hwait (not_lt_of_ge hle)

/-- C2 (witness): one hour past the grace period the staged file is
deleted; at or before the boundary it is kept. -/
theorem grace_period_strict_delete_witness :
    ((consider_file_for_deletion fsStaged envLate stStaged stagedOld (some 0)
        false none {} none).ret = some (true, false) ↔
      envLate.today > deStaged.marked_time + deleteThreshold 0) ∧
    (envLate.today ≤ deStaged.marked_time + deleteThreshold 0 →
      consider_file_for_deletion fsStaged envLate stStaged stagedOld (some 0)
        false none {} none = ⟨some (false, false), stStaged, []⟩) :=
  grace_period_strict_delete fsStaged envLate stStaged stagedOld stagedOld
    ⟨1, 7⟩ deStaged 0 none {} none (by decide) (by decide) (by decide)
    (by decide) (by decide) (by decide) (by decide) (by decide)

/-! ### C5 — merging frames into one entry -/

/-- C5 (counterexample): deleting a staged file whose path the entry
already records re-adds its size (expunge.py lines 1267-1272): the entry
ends at twice the file size although no new file was folded in. -/
theorem merge_no_resum_cex : ¬ mergeNoResumClaim := by
  intro h
  obtain ⟨de', hfind, hsize⟩ := h fsStaged envLate stStaged stagedOld
    stagedOld ⟨1, 7⟩ deStaged (some 0) none {} none (by decide) (by decide)
    (by decide) (by decide) (by decide) (by decide) (true, false) (by decide)
  have hcomp : findEntry (consider_file_for_deletion fsStaged envLate
      stStaged stagedOld (some 0) false none {} none).st.entries
      (pathEntryOf stagedOld) =
      some { marked_time := 10000000
             delete_time := 10172800
             size := 14
             is_deleted := true
             paths := [stagedOld] } := by decide
  rw [hcomp] at hfind
  have he : de' = { marked_time := 10000000
                    delete_time := 10172800
                    size := 14
                    is_deleted := true
                    paths := [stagedOld] } :=
    (Option.some.inj hfind).symm
  rw [he] at hsize
  exact absurd hsize (by decide)

def frame1 : String := "/proj/ab/render.1001.exr"

def frame2 : String := "/proj/ab/render.1002.exr"

def fsFrames : FS :=
  { stat := fun p =>
      if p = frame1 then some ⟨1, 5⟩
      else if p = frame2 then some ⟨1, 6⟩ else none
    islink := fun _ => false
    glob := fun _ => []
    isfile := fun p => p = frame1 ∨ p = frame2
    isdir := fun _ => false
    removeOk := fun _ => true
    duSize := fun _ => 0 }

/-- C5 (amended): considering two distinct stale frames of one sequence on
consecutive runs stages both under one ledger key: the second call merges
into the entry created by the first (`paths` by set insertion, `size` by
adding the newly staged file's size), leaving exactly one new entry whose
`paths` holds both staged files and whose `size` is the sum of the two file
sizes.  (When a path already recorded is folded in again — a staged file
later deleted — the size is nevertheless re-added, which is what the
counterexample shows; set insertion itself is idempotent.) -/
theorem merge_two_frames_one_entry (fs : FS) (env : Env) (st : EngineState)
    (p1 p2 : String) (c : Fin 3) (extra : ExtraData) (fst1 fst2 : FileStat)
    (pe : String)
    (hp1 : p1 ≠ "") (hp2 : p2 ≠ "")
    (h1 : fs.stat p1 = some fst1) (h2 : fs.stat p2 = some fst2)
    (hl1 : fs.islink p1 = false) (hl2 : fs.islink p2 = false)
    (hd1 : fs.isdir p1 = false) (hd2 : fs.isdir p2 = false)
    (hm1 : hasDeleteMarker (splitPath p1).2 = false)
    (hm2 : hasDeleteMarker (splitPath p2).2 = false)
    (hpe1 : pathEntryOf p1 = pe) (hpe2 : pathEntryOf p2 = pe)
    (hprot : pe ∉ st.protectedEntries)
    (hnew : findEntry st.entries pe = none)
    (hold1 : ¬ fst1.mtime > warningThreshold env (some c))
    (hold2 : ¬ fst2.mtime > warningThreshold env (some c))
    (hnames : stagedName env p2 ∉ [stagedName env p1]) :
    (consider_file_for_deletion fs env st p1 (some c) false none extra
      none).ret = some (false, true) ∧
    (consider_file_for_deletion fs env
      (consider_file_for_deletion fs env st p1 (some c) false none extra
        none).st p2 (some c) false none extra none).ret =
      some (false, true) ∧
    findEntry (consider_file_for_deletion fs env
      (consider_file_for_deletion fs env st p1 (some c) false none extra
        none).st p2 (some c) false none extra none).st.entries pe =
      some { marked_time := env.timeNow
             delete_time := env.timeNow + deleteThreshold c
             is_deleted := false
             size := fst1.st_size + fst2.st_size
             paths := [stagedName env p1, stagedName env p2]
             publish_dir := extra.publish_dir
             publish_id := extra.publish_id
             reason := extra.reason } ∧
    (consider_file_for_deletion fs env
      (consider_file_for_deletion fs env st p1 (some c) false none extra
        none).st p2 (some c) false none extra none).st.entries.map Prod.fst =
      st.entries.map Prod.fst ++ [pe] := by
  have hres1 := resolveStat_of_stat fs p1 fst1 h1
  have hres2 := resolveStat_of_stat fs p2 fst2 h2
  have hef1 : entryFor env st (pathEntryOf p1) (some c) extra =
      some (freshEntry env c extra) := by
    unfold entryFor
    rw [hpe1, hnew]
  have hsz1 : get_filepath_size fs p1 fst1 = fst1.st_size := by
    unfold get_filepath_size
    rw [hd1]
    simp
  have hsz2 : get_filepath_size fs p2 fst2 = fst2.st_size := by
    unfold get_filepath_size
    rw [hd2]
    simp
  have hstage1 := consider_stage fs env st p1 p1 fst1
    (freshEntry env c extra) (some c) extra none hp1 hres1 hl1
    (hpe1 ▸ hprot) hef1 hm1 hold1
  set e1 : DataEntry := foldStaged (freshEntry env c extra)
    (stagedName env p1) (get_filepath_size fs p1 fst1) with he1def
  have he1 : e1 = { marked_time := env.timeNow
                    delete_time := env.timeNow + deleteThreshold c
                    is_deleted := false
                    size := fst1.st_size
                    paths := [stagedName env p1]
                    publish_dir := extra.publish_dir
                    publish_id := extra.publish_id
                    reason := extra.reason } := by
    rw [he1def, hsz1]
    rfl
  have hst1 : (consider_file_for_deletion fs env st p1 (some c) false none
      extra none).st.entries = setEntry st.entries pe e1 := by
    rw [hstage1, hpe1]
  have hfind1 : findEntry (setEntry st.entries pe e1) pe = some e1 := by
    rw [findEntry_setEntry]
    simp
  have hef2 : entryFor env
      (consider_file_for_deletion fs env st p1 (some c) false none extra
        none).st (pathEntryOf p2) (some c) extra = some e1 := by
    unfold entryFor
    have : findEntry (consider_file_for_deletion fs env st p1 (some c) false
        none extra none).st.entries (pathEntryOf p2) = some e1 := by
      rw [hst1, hpe2]
      exact hfind1
    rw [this]
  have hprot2 : pathEntryOf p2 ∉ (consider_file_for_deletion fs env st p1
      (some c) false none extra none).st.protectedEntries := by
    rw [hstage1]
    rw [hpe2]
    exact hprot
  have hstage2 := consider_stage fs env
    (consider_file_for_deletion fs env st p1 (some c) false none extra
      none).st p2 p2 fst2 e1 (some c) extra none hp2 hres2 hl2 hprot2 hef2
    hm2 hold2
  have he2 : foldStaged e1 (stagedName env p2) (get_filepath_size fs p2 fst2)
      = { marked_time := env.timeNow
          delete_time := env.timeNow + deleteThreshold c
          is_deleted := false
          size := fst1.st_size + fst2.st_size
          paths := [stagedName env p1, stagedName env p2]
          publish_dir := extra.publish_dir
          publish_id := extra.publish_id
          reason := extra.reason } := by
    rw [hsz2, he1]
    have hne : ¬ stagedName env p2 = stagedName env p1 := by simpa using hnames
    unfold foldStaged insertPath
    simp [hne]
  refine ⟨by rw [hstage1], by rw [hstage2], ?_, ?_⟩
  · rw [hstage2]
    show findEntry (setEntry (consider_file_for_deletion fs env st p1
      (some c) false none extra none).st.entries (pathEntryOf p2)
      (foldStaged e1 (stagedName env p2) (get_filepath_size fs p2 fst2))) pe
      = _
    rw [findEntry_setEntry, hpe2, if_pos rfl, he2]
  · rw [hstage2]
    show (setEntry (consider_file_for_deletion fs env st p1 (some c) false
      none extra none).st.entries (pathEntryOf p2)
      (foldStaged e1 (stagedName env p2) (get_filepath_size fs p2 fst2))).map
        Prod.fst = _
    rw [hst1, hpe2]
    rw [keys_setEntry_of_some _ _ _ e1 hfind1]
    exact keys_setEntry_of_none st.entries pe e1 hnew

/-- C5 (witness): frames 1001 and 1002, staged on consecutive runs from an
empty ledger, end in one entry keyed by the frame pattern with both staged
paths and size `5 + 6`. -/
theorem merge_two_frames_one_entry_witness :
    (consider_file_for_deletion fsFrames env0 stEmpty frame1 (some 0) false
      none {} none).ret = some (false, true) ∧
    (consider_file_for_deletion fsFrames env0
      (consider_file_for_deletion fsFrames env0 stEmpty frame1 (some 0)
        false none {} none).st frame2 (some 0) false none {} none).ret =
      some (false, true) ∧
    findEntry (consider_file_for_deletion fsFrames env0
      (consider_file_for_deletion fsFrames env0 stEmpty frame1 (some 0)
        false none {} none).st frame2 (some 0) false none {} none).st.entries
      "/proj/ab/render.*.exr" =
      some { marked_time := env0.timeNow
             delete_time := env0.timeNow + deleteThreshold 0
             is_deleted := false
             size := (5 : Int) + 6
             paths := [stagedName env0 frame1, stagedName env0 frame2]
             publish_dir := none
             publish_id := none
             reason := none } ∧
    (consider_file_for_deletion fsFrames env0
      (consider_file_for_deletion fsFrames env0 stEmpty frame1 (some 0)
        false none {} none).st frame2 (some 0) false none {} none).st.entries.map
      Prod.fst = stEmpty.entries.map Prod.fst ++ ["/proj/ab/render.*.exr"] :=
  merge_two_frames_one_entry fsFrames env0 stEmpty frame1 frame2 0 {}
    ⟨1, 5⟩ ⟨1, 6⟩ "/proj/ab/render.*.exr" (by decide) (by decide) (by decide)
    (by decide) (by decide) (by decide) (by decide) (by decide) (by decide)
    (by decide) (by decide) (by decide) (by decide) (by decide) (by decide)
    (by decide) (by decide)

/-! ### C6 — fail-soft deletion -/

def fsFailDel : FS :=
  { stat := fun p => if p = stagedOld then some ⟨1, 7⟩ else none
    islink := fun _ => false
    glob := fun _ => []
    isfile := fun p => p = stagedOld
    isdir := fun _ => false
    removeOk := fun _ => false
    duSize := fun _ => 0 }

/-- C6: the removal layer never lets an exception escape — a raising
`os.remove`/`shutil.rmtree` becomes `False` (expunge.py lines 1039-1042) —
and when the delete of an overdue path fails the call reports
`(False, False)` and leaves the entry, the ledger and the running total
untouched (lines 1261-1275). -/
theorem delete_failure_fail_soft (fs : FS) (env : Env) (st : EngineState)
    (p fp : String) (fst : FileStat) (de : DataEntry)
    (caution : Option (Fin 3)) (archive : Bool) (create_time : Option Int)
    (extra : ExtraData) (symlink_path : Option String)
    (hp : p ≠ "")
    (hres : resolveStat fs p = some (fp, fst))
    (hlink : fs.islink fp = false)
    (hprot : pathEntryOf fp ∉ st.protectedEntries)
    (hde : entryFor env st (pathEntryOf fp) caution extra = some de)
    (hbranch : hasDeleteMarker (splitPath fp).2 = true ∨ archive = true)
    (htime : env.today > de.delete_time ∨ archive = true)
    (hfail : delete_filepath fs fp = false) :
    (∀ q msg, osRemove fs q = .error msg → delete_filepath fs q = false) ∧
    consider_file_for_deletion fs env st p caution archive create_time extra
      symlink_path = ⟨some (false, false), st, []⟩ := by
  constructor
  · intro q msg hq
    have hrm : fs.removeOk q = false := by
      cases hb : fs.removeOk q
      · rfl
      · rw [osRemove, if_pos hb] at hq
        exact absurd hq (by simp)
    unfold delete_filepath
    by_cases hf : fs.isfile q
    · simp [hf, osRemove, hrm]
    · by_cases hd : fs.isdir q
      · simp [hf, hd, osRemove, hrm]
      · simp [hf, hd]
  · exact consider_delete_fail fs env st p fp fst de caution archive
      create_time extra symlink_path hp hres hlink hprot hde hbranch htime
      hfail

/-- C6 (witness): an overdue staged file whose removal raises. -/
theorem delete_failure_fail_soft_witness :
    (∀ q msg, osRemove fsFailDel q = .error msg →
      delete_filepath fsFailDel q = false) ∧
    consider_file_for_deletion fsFailDel envLate stStaged stagedOld (some 0)
      false none {} none = ⟨some (false, false), stStaged, []⟩ :=
  delete_failure_fail_soft fsFailDel envLate stStaged stagedOld stagedOld
    ⟨1, 7⟩ deStaged (some 0) false none {} none (by decide) (by decide)
    (by decide) (by decide) (by decide) (Or.inl (by decide))
    (Or.inl (by decide)) (by decide)

/-! ### C7 — collection aggregation -/

/-- C7 (counterexample): a collection containing a protected member does
not complete: the member's bare-`return` `None` is unpacked as
`deleted_, marked_ = ...` in the loop (expunge.py line 1132), raising a
`TypeError` that nothing in the engine catches. -/
theorem collection_raises_cex : ¬ collectionNeverRaisesClaim := by
  intro h
  obtain ⟨v, hv⟩ := h fsProt env0 stProt [protDir] (some 1) false none {}
  have hok := congrArg Except.isOk hv
  have hc : (consider_collection_for_deletion fsProt env0 stProt [protDir]
      (some 1) false none {} none).isOk = false := by decide
  rw [hc] at hok
  simp [Except.isOk, Except.toBool] at hok

def stagedA : String := "/proj/ab/__DELETE__(2024-02-20)seqa.exr"

def stagedB : String := "/proj/ab/__DELETE__(2024-02-20)seqb.exr"

def stagedC : String := "/proj/ab/__DELETE__(2024-02-20)seqc.exr"

/-- Overdue staged entries for the three batch members. -/
def entryForBatch (p : String) : DataEntry :=
  { marked_time := 10000000
    delete_time := 10000000 + 172800
    size := 7
    is_deleted := false
    paths := [p] }

def stBatch : EngineState :=
  { entries := [("/proj/ab/seqa.exr", entryForBatch stagedA),
      ("/proj/ab/seqb.exr", entryForBatch stagedB),
      ("/proj/ab/seqc.exr", entryForBatch stagedC)]
    protectedEntries := []
    total_size_deleted := 0 }

/-- A batch where the middle member's removal raises a permission error. -/
def fsBatch : FS :=
  { stat := fun p =>
      if p = stagedA ∨ p = stagedB ∨ p = stagedC then some ⟨1, 7⟩ else none
    islink := fun _ => false
    glob := fun _ => []
    isfile := fun p => p = stagedA ∨ p = stagedB ∨ p = stagedC
    isdir := fun _ => false
    removeOk := fun p => p ≠ stagedB
    duSize := fun _ => 0 }

/-- C7 (amended): when every member's call returns a pair — no member hits
the protected bare-`return` — the collection reports `deleted` iff some
member was deleted and `staged` iff some member was staged, individual
failures (a failed delete is reported `(False, False)`) merely dropping out
of the disjunction; the run then completes without raising. -/
theorem collection_any_success (fs : FS) (env : Env) (st : EngineState)
    (members : List String) (caution : Option (Fin 3)) (archive : Bool)
    (create_time : Option Int) (extra : ExtraData) (l : List (Bool × Bool))
    (h : memberOutcomes fs env caution archive create_time extra members st
      = some l) :
    ∃ st' acts',
      consider_collection_for_deletion fs env st members caution archive
        create_time extra none =
        .ok ((l.any (fun dm => dm.1), l.any (fun dm => dm.2)), st', acts') := by
  obtain ⟨st', acts', hl⟩ := considerLoop_ok fs env caution archive
    create_time extra members st 0 false false [] l h
  exact ⟨st', acts', by simpa [consider_collection_for_deletion] using hl⟩

/-- C7 (witness): three overdue staged members, the middle delete failing:
the member outcomes are `(True,False), (False,False), (True,False)` and the
collection reports `(deleted, staged) = (True, False)` without raising (the
any-success semantics of the claim's scenario). -/
theorem collection_any_success_witness :
    ∃ st' acts',
      consider_collection_for_deletion fsBatch envLate stBatch
        [stagedA, stagedB, stagedC] (some 0) false none {} none =
        .ok ((([(true, false), (false, false), (true, false)]).any
            (fun dm => dm.1),
          ([(true, false), (false, false), (true, false)]).any
            (fun dm => dm.2)), st', acts') :=
  collection_any_success fsBatch envLate stBatch [stagedA, stagedB, stagedC]
    (some 0) false none {} [(true, false), (false, false), (true, false)]
    (by decide)

/-! ### C3 — the save merge -/

/-- C3: saving concatenates the existing table with the in-memory rows and
de-duplicates on the key keeping the most recent write (expunge.py lines
276-283): every key of the persisted table survives, a key present in
memory carries the in-memory row (memory wins on collision), and a key
absent from memory keeps its most recent persisted row. -/
theorem save_merges_keeping_most_recent (T : List CsvRow)
    (M : List (String × DataEntry)) (hM : (M.map Prod.fst).Nodup) :
    (∀ r ∈ T, ∃ r' ∈ write_archive_data (some T) M, r'.path = r.path) ∧
    (∀ k e, findEntry M k = some e →
      findRow (write_archive_data (some T) M) k = some (entryToRow k e)) ∧
    (∀ k, findEntry M k = none →
      findRow (write_archive_data (some T) M) k = findLastRow T k) := by
  refine ⟨?_, ?_, ?_⟩
  · intro r hr
    have hmem : r.path ∈ (T ++ M.map (fun kv => entryToRow kv.1 kv.2)).map
        CsvRow.path :=
      List.mem_map.mpr ⟨r, List.mem_append_left _ hr, rfl⟩
    have hsome : (findRow (write_archive_data (some T) M) r.path).isSome := by
      unfold write_archive_data
      rw [findRow_dedupKeepLast, findLastRow_eq, findRow_isSome_iff,
        List.map_reverse, List.mem_reverse]
      exact hmem
    obtain ⟨r', hr'⟩ := Option.isSome_iff_exists.mp hsome
    have hr'' := hr'
    simp only [findRow] at hr''
    refine ⟨r', List.mem_of_find?_eq_some hr'', ?_⟩
    have := List.find?_some hr''
    simpa using this
  · intro k e he
    exact findRow_write_of_findEntry T M k e hM he
  · intro k he
    exact findRow_write_of_findEntry_none T M k he

def rowA : CsvRow :=
  { path := "/proj/ab/a.exr"
    delete_time := 1
    marked_time := 1
    size := 1
    is_deleted := true
    publish_dir := ""
    publish_id := ""
    reason := ""
    paths := ["/proj/ab/a.exr"] }

def rowB : CsvRow :=
  { path := "/proj/ab/b.exr"
    delete_time := 2
    marked_time := 2
    size := 2
    is_deleted := false
    publish_dir := ""
    publish_id := ""
    reason := ""
    paths := ["/proj/ab/b.exr"] }

def entB : DataEntry :=
  { marked_time := 5
    delete_time := 6
    size := 9
    is_deleted := false
    paths := ["/proj/ab/__DELETE__(2024-03-01)b.exr"] }

def entC : DataEntry :=
  { marked_time := 7
    delete_time := 8
    size := 3
    is_deleted := false
    paths := ["/proj/ab/__DELETE__(2024-03-01)c.exr"]
    reason := some "Routine clean up" }

def tblT : List CsvRow := [rowA, rowB]

def memM : List (String × DataEntry) :=
  [("/proj/ab/b.exr", entB), ("/proj/ab/c.exr", entC)]

/-- C3 (witness): a two-row table merged with a two-entry map sharing one
key. -/
theorem save_merges_keeping_most_recent_witness :
    (∀ r ∈ tblT, ∃ r' ∈ write_archive_data (some tblT) memM,
      r'.path = r.path) ∧
    (∀ k e, findEntry memM k = some e →
      findRow (write_archive_data (some tblT) memM) k =
        some (entryToRow k e)) ∧
    (∀ k, findEntry memM k = none →
      findRow (write_archive_data (some tblT) memM) k = findLastRow tblT k) :=
  save_merges_keeping_most_recent tblT memM (by decide)

/-! ### C4 — the save/load round trip -/

/-- C4 (counterexample): an entry whose optional metadata holds the empty
string does not survive the round trip with its fields intact: the column
is written via `.get(..., "")` and an empty CSV cell reads back as a
missing value (pandas NaN), not as `""`. -/
theorem save_load_roundtrip_cex : ¬ roundTripClaim := by
  intro h
  obtain ⟨e', hfind, h1, h2, h3, h4, h5, h6, h7, h8⟩ :=
    h [] [("/proj/ab/k.exr", { marked_time := 5
                               delete_time := 6
                               size := 9
                               is_deleted := false
                               paths := ["/proj/ab/k.exr"]
                               reason := some "" })]
      (by decide) "/proj/ab/k.exr"
      { marked_time := 5
        delete_time := 6
        size := 9
        is_deleted := false
        paths := ["/proj/ab/k.exr"]
        reason := some "" } (by decide) (by decide)
  have hcomp : findEntry (read_archive_data (write_archive_data (some [])
      [("/proj/ab/k.exr", { marked_time := 5
                            delete_time := 6
                            size := 9
                            is_deleted := false
                            paths := ["/proj/ab/k.exr"]
                            reason := some "" })])) "/proj/ab/k.exr" =
      some { marked_time := 5
             delete_time := 6
             size := 9
             is_deleted := false
             paths := ["/proj/ab/k.exr"] } := by decide
  rw [hcomp] at hfind
  have he : e' = { marked_time := 5
                   delete_time := 6
                   size := 9
                   is_deleted := false
                   paths := ["/proj/ab/k.exr"] } :=
    (Option.some.inj hfind).symm
  rw [he] at h8
  exact absurd h8 (by decide)

/-- C4 (amended): saving then loading reproduces every `is_deleted=false`
entry exactly in its key, timestamps, size, flag and paths; the optional
metadata strings come back through the empty-cell collapse — equal to the
original whenever the original is not `some ""` (absent stays absent,
non-empty strings are kept, an empty string reloads as absent).  Entries
with `is_deleted=true` are not reloaded. -/
theorem save_load_roundtrip_amended (T : List CsvRow)
    (M : List (String × DataEntry)) (hM : (M.map Prod.fst).Nodup)
    (k : String) (e : DataEntry) (he : findEntry M k = some e) :
    (e.is_deleted = false →
      findEntry (read_archive_data (write_archive_data (some T) M)) k =
        some { e with
                publish_dir := parseCell (e.publish_dir.getD "")
                publish_id := parseCell (e.publish_id.getD "")
                reason := parseCell (e.reason.getD "") }) ∧
    (e.is_deleted = true →
      findEntry (read_archive_data (write_archive_data (some T) M)) k =
        none) := by
  have hw := findRow_write_of_findEntry T M k e hM he
  have hnd := write_keys_nodup T M
  constructor
  · intro hfalse
    rw [findEntry_read_of_nodup _ _ hnd, hw]
    have hd : (entryToRow k e).is_deleted = false := hfalse
    simp only [hd, Bool.false_eq_true, if_false, rowToEntry_entryToRow]
  · intro htrue
    rw [findEntry_read_of_nodup _ _ hnd, hw]
    have hd : (entryToRow k e).is_deleted = true := htrue
    simp only [hd, if_true]

/-- C4 (witness): the active entry `entC` (non-empty metadata) round-trips
through a save over an existing table. -/
theorem save_load_roundtrip_witness :
    (entC.is_deleted = false →
      findEntry (read_archive_data (write_archive_data (some tblT) memM))
        "/proj/ab/c.exr" =
        some { entC with
                publish_dir := parseCell (entC.publish_dir.getD "")
                publish_id := parseCell (entC.publish_id.getD "")
                reason := parseCell (entC.reason.getD "") }) ∧
    (entC.is_deleted = true →
      findEntry (read_archive_data (write_archive_data (some tblT) memM))
        "/proj/ab/c.exr" = none) :=
  save_load_roundtrip_amended tblT memM (by decide) "/proj/ab/c.exr" entC
    (by decide)

end Expunge
